import Mathlib

/-!
Shallow embedding of `src/main.py` (ToGoalBackend): a FastAPI CRUD backend
for projects, skills, users, tasks and participation forms, plus a websocket
chat layer (`ConnectionManager`).  Python dicts keyed by user id are embedded
as association lists with dict semantics (a key occurs at most once in any
state reachable through the operations; lookup finds the entry for a key).
HTTP exceptions (`HTTPException`) are embedded as `Except String`.
-/

namespace ToGoal

/-! ## Connection registry and message router (`ConnectionManager`, lines 202-234)

`active_connections : Dict[int, WebSocket]` is embedded as an association
list from user ids to channel handles; channel handles are opaque and are
represented by `Nat`.  `send_text` on a channel is embedded by recording the
pair (channel, message) in the list of deliveries the call performs. -/

/-- The `active_connections` dictionary: user id to channel handle. -/
abbrev Registry := List (Nat × Nat)

/-- Dictionary lookup `active_connections[user_id]` /
`user_id in active_connections`. -/
def lookupConn (r : Registry) (u : Nat) : Option Nat :=
  (r.find? (fun p => p.1 == u)).map (fun p => p.2)

/-- `ConnectionManager.connect` (lines 206-209): `self.active_connections[user_id] = websocket`.
Dict assignment stores the mapping, replacing any prior entry for that id. -/
def connect (r : Registry) (u : Nat) (ch : Nat) : Registry :=
  r.filter (fun p => p.1 != u) ++ [(u, ch)]

/-- `ConnectionManager.disconnect` (lines 211-214):
`if user_id in self.active_connections: del self.active_connections[user_id]`. -/
def disconnect (r : Registry) (u : Nat) : Registry :=
  if (lookupConn r u).isSome then r.filter (fun p => p.1 != u) else r

/-- `ConnectionManager.send_message` (lines 216-219): if the receiver is in
`active_connections`, write the message text to its channel (one `send_text`
call); otherwise do nothing.  The registry is not modified; the returned
list records the (channel, text) writes the call performs. -/
def send_message (r : Registry) (sender_id receiver_id : Nat) (message : String) :
    Registry × List (Nat × String) :=
  match lookupConn r receiver_id with
  | some ch => (r, [(ch, message)])
  | none => (r, [])

/-- `websocket_endpoint` (lines 223-234), `WebSocketDisconnect` branch: on a
channel's disconnect the endpoint calls `manager.disconnect(user_id)` with the
path user id only — it does not check that the registered channel is the one
that disconnected. -/
def websocket_close_path (r : Registry) (user_id : Nat) : Registry :=
  disconnect r user_id

/-! ## Record store (`load_data` / `save_data`, lines 72-86) -/

/-- The states of a collection's backing JSON file that `load_data` can
encounter: the file may be absent (`open` raises `FileNotFoundError`),
present but not parsable as JSON (`json.load` raises
`json.JSONDecodeError`), or parse to a JSON value that either is a list of
records or is not a list. -/
inductive Medium (α : Type) where
  | absent : Medium α
  | unparsable : Medium α
  | jsonList (records : List α) : Medium α
  | jsonNonList : Medium α
deriving DecidableEq

/-- `load_data` (lines 72-81): returns the parsed data when it is a list,
`[]` when it parses to a non-list (`isinstance(data, list)` is false), and
`[]` when the file is absent (`except FileNotFoundError: return []`).  A
present but unparsable file makes `json.load` raise `json.JSONDecodeError`,
which the function does not catch, so it propagates to the caller; this is
embedded as the `Except.error` case. -/
def load_data {α : Type} : Medium α → Except String (List α)
  | .absent => .ok []
  | .unparsable => .error "json.decoder.JSONDecodeError"
  | .jsonList records => .ok records
  | .jsonNonList => .ok []

/-! ## Entity records (Pydantic models, lines 25-62) -/

/-- `Project` model (lines 25-31). -/
structure ProjectRec where
  id : Int
  name : String
  description : String
  podrazdelenie : String
  date : String
  skills : List Int
deriving DecidableEq

/-- `User` model (lines 40-44). -/
structure UserRec where
  id : Int
  first_name : String
  last_name : String
  password : String
deriving DecidableEq

/-- `Task` model (lines 47-53). -/
structure TaskRec where
  id : Int
  project_id : Int
  name : String
  description : String
  date : String
  status : String
deriving DecidableEq

/-- `ParticipationForm` model (lines 56-62). -/
structure FormRec where
  id : Int
  user_id : Int
  project_id : Int
  motivation : String
  experience : String
  availability : String
deriving DecidableEq

/-- Python `max` over a nonempty sequence of ids
(`max(p["id"] for p in projects)`).  Every caller guards emptiness with
`1 if not projects else ...`, so the `[]` case is unreachable in the
embedded operations. -/
def maxId : List Int → Int
  | [] => 0
  | [x] => x
  | x :: y :: xs => max x (maxId (y :: xs))

/-! ## CRUD operations (the non-trivial ones the claims cover)

Each handler is `load_data; mutate; save_data; return`.  The embedding takes
the loaded collection as input and returns the collection passed to
`save_data` together with the response; `raise HTTPException` is
`Except.error` (no save happens on that path, so no collection is
returned). -/

/-- `create_project` (lines 102-110): next id is `1` on an empty collection
and `max(p["id"] for p in projects) + 1` otherwise; the new record is the
payload with the assigned id, appended to the collection; the handler
persists the extended collection and returns the new record. -/
def create_project (projects : List ProjectRec) (project : ProjectRec) :
    List ProjectRec × ProjectRec :=
  let new_id : Int :=
    if projects.isEmpty then 1 else maxId (projects.map (fun p => p.id)) + 1
  let new_project := { project with id := new_id }
  (projects ++ [new_project], new_project)

/-- `register_user` (lines 237-245): same id scheme as `create_project`. -/
def register_user (users : List UserRec) (user : UserRec) :
    List UserRec × UserRec :=
  let new_id : Int :=
    if users.isEmpty then 1 else maxId (users.map (fun u => u.id)) + 1
  let new_user := { user with id := new_id }
  (users ++ [new_user], new_user)

/-- `create_form` (lines 324-336): first scans existing forms for one with
the same `user_id` and `project_id` and raises 400 "Form already submitted
for this project" on a match (before any id assignment or save); otherwise
assigns the next id with the same scheme as the other creates, appends and
persists. -/
def create_form (forms : List FormRec) (form : FormRec) :
    Except String (List FormRec × FormRec) :=
  if forms.any (fun e => e.user_id == form.user_id && e.project_id == form.project_id) then
    .error "Form already submitted for this project"
  else
    let new_id : Int :=
      if forms.isEmpty then 1 else maxId (forms.map (fun f => f.id)) + 1
    let new_form := { form with id := new_id }
    .ok (forms ++ [new_form], new_form)

/-- `update_project` (lines 112-121): linear scan for the first record with
the given id; on a match, `updated_project.dict(exclude={"id"})` is merged
over the existing record — every field of the payload except `id` replaces
the stored one — then the collection is persisted and the merged record
returned; 404 "Project not found" when no record matches. -/
def update_project : List ProjectRec → Int → ProjectRec →
    Except String (List ProjectRec × ProjectRec)
  | [], _, _ => .error "Project not found"
  | p :: ps, project_id, updated_project =>
    if p.id = project_id then
      let merged := { updated_project with id := p.id }
      .ok (merged :: ps, merged)
    else
      match update_project ps project_id updated_project with
      | .ok (ps2, m) => .ok (p :: ps2, m)
      | .error e => .error e

/-- `update_task` (lines 281-290): like `update_project` but the scan
matches on both `id == task_id` and `project_id == project_id`, and the
merge excludes both `id` and `project_id`. -/
def update_task : List TaskRec → Int → Int → TaskRec →
    Except String (List TaskRec × TaskRec)
  | [], _, _, _ => .error "Task not found"
  | t :: ts, project_id, task_id, updated_task =>
    if t.id = task_id ∧ t.project_id = project_id then
      let merged := { updated_task with id := t.id, project_id := t.project_id }
      .ok (merged :: ts, merged)
    else
      match update_task ts project_id task_id updated_task with
      | .ok (ts2, m) => .ok (t :: ts2, m)
      | .error e => .error e

/-- `delete_project` (lines 123-131): filter out every record whose id
matches; if the length is unchanged raise 404 "Project not found" (and do
not save), else persist the filtered collection. -/
def delete_project (projects : List ProjectRec) (project_id : Int) :
    Except String (List ProjectRec) :=
  let remaining := projects.filter (fun p => p.id != project_id)
  if remaining.length = projects.length then .error "Project not found"
  else .ok remaining

/-- `delete_task` (lines 292-300): same scheme, matching on the
(id, project_id) pair. -/
def delete_task (tasks : List TaskRec) (project_id task_id : Int) :
    Except String (List TaskRec) :=
  let remaining :=
    tasks.filter (fun t => !(t.id == task_id && t.project_id == project_id))
  if remaining.length = tasks.length then .error "Task not found"
  else .ok remaining

/-- `delete_form` (lines 349-357): same scheme as `delete_project`. -/
def delete_form (forms : List FormRec) (form_id : Int) :
    Except String (List FormRec) :=
  let remaining := forms.filter (fun f => f.id != form_id)
  if remaining.length = forms.length then .error "Form not found"
  else .ok remaining

/-- A sample project payload (the spec's §8 end-to-end example). -/
def prSample : ProjectRec :=
  { id := 0, name := "X", description := "d", podrazdelenie := "eng",
    date := "2024-01-01", skills := [] }

/-- A sample user payload. -/
def usSample : UserRec :=
  { id := 0, first_name := "Ann", last_name := "Lee", password := "pw" }

/-- A sample task payload. -/
def tkSample : TaskRec :=
  { id := 0, project_id := 1, name := "t", description := "d",
    date := "2024-01-01", status := "open" }

/-- A sample participation-form payload. -/
def fmSample : FormRec :=
  { id := 0, user_id := 3, project_id := 4, motivation := "m",
    experience := "e", availability := "a" }

/-- A stored project record with id 1. -/
def pr1 : ProjectRec := { prSample with id := 1 }

/-- A stored task record with id 1 in project 2. -/
def tk1 : TaskRec := { tkSample with id := 1, project_id := 2 }

/-- A stored participation form with id 1. -/
def fm1 : FormRec := { fmSample with id := 1 }

/-- An update payload whose id (and project_id) differ from the stored
record's, to exercise that the merge cannot alter them. -/
def prPayload : ProjectRec :=
  { id := 99, name := "n2", description := "d2", podrazdelenie := "p2",
    date := "2025-02-02", skills := [3] }

/-- Task analogue of `prPayload`. -/
def tkPayload : TaskRec :=
  { id := 99, project_id := 88, name := "n2", description := "d2",
    date := "2025-02-02", status := "done" }

/-- The collection states reachable from the empty collection through the
three persisted-state transitions of the project handlers: a create, a
successful update, and a successful delete. -/
inductive ReachableProjects : List ProjectRec → Prop where
  | empty : ReachableProjects []
  | create (l : List ProjectRec) (p : ProjectRec) (hl : ReachableProjects l) :
      ReachableProjects (create_project l p).1
  | update (l l2 : List ProjectRec) (pid : Int) (up m : ProjectRec)
      (hl : ReachableProjects l)
      (h : update_project l pid up = Except.ok (l2, m)) : ReachableProjects l2
  | delete (l l2 : List ProjectRec) (pid : Int) (hl : ReachableProjects l)
      (h : delete_project l pid = Except.ok l2) : ReachableProjects l2

/-! ### Registry lemmas -/

/-- After filtering out key `u`, a lookup for `u` misses. -/
theorem find_filter_ne_none (r : Registry) (u : Nat) :
    (r.filter (fun p => p.1 != u)).find? (fun p => p.1 == u) = none := by
  induction r with
  | nil => rfl
  | cons p ps ih =>
    by_cases h : p.1 = u
    · simp [List.filter_cons, h, ih]
    · simp [List.filter_cons, List.find?_cons, h, ih]

/-- Filtering out key `u` does not affect a lookup for a different key. -/
theorem find_filter_ne_other (r : Registry) (u v : Nat) (hvu : v ≠ u) :
    (r.filter (fun p => p.1 != u)).find? (fun p => p.1 == v) =
      r.find? (fun p => p.1 == v) := by
  induction r with
  | nil => rfl
  | cons p ps ih =>
    by_cases h : p.1 = u
    · have hv : ¬ p.1 = v := by rw [h]; exact fun hc => hvu hc.symm
      simp [List.filter_cons, List.find?_cons, h, hv, hvu, hvu.symm, ih]
    · by_cases h2 : p.1 = v
      · simp [List.filter_cons, List.find?_cons, h, h2, hvu, hvu.symm]
      · simp [List.filter_cons, List.find?_cons, h, h2, hvu, ih]

theorem lookupConn_connect_self (r : Registry) (u ch : Nat) :
    lookupConn (connect r u ch) u = some ch := by
  unfold lookupConn connect
  rw [List.find?_append, find_filter_ne_none]
  simp [List.find?]

theorem lookupConn_disconnect_self (r : Registry) (u : Nat) :
    lookupConn (disconnect r u) u = none := by
  unfold disconnect
  by_cases h : (lookupConn r u).isSome
  · simp only [h, if_true]
    unfold lookupConn
    rw [find_filter_ne_none]
    rfl
  · simp only [h, if_false]
    exact Option.not_isSome_iff_eq_none.mp h

theorem lookupConn_disconnect_other (r : Registry) (u v : Nat) (hvu : v ≠ u) :
    lookupConn (disconnect r u) v = lookupConn r v := by
  unfold disconnect
  by_cases h : (lookupConn r u).isSome
  · simp only [h, if_true]
    unfold lookupConn
    rw [find_filter_ne_other r u v hvu]
  · simp [h]

theorem mem_le_maxId : ∀ (l : List Int), ∀ x ∈ l, x ≤ maxId l
  | [y], x, hx => by
    rcases List.mem_singleton.mp hx with h
    simp [maxId, h]
  | y :: z :: xs, x, hx => by
    rcases List.mem_cons.mp hx with h | h
    · subst h
      exact le_max_left _ _
    · exact le_trans (mem_le_maxId (z :: xs) x h) (le_max_right _ _)

/-! ## Claim theorems: chat layer -/

/-- C1: `Route(sender_id, receiver_id, text)`: for every registry state, if
`receiver_id` is mapped to a channel in the registry, the text is written to
that channel verbatim exactly once; if `receiver_id` is not mapped, no
channel receives anything, the registry is unchanged, and no error is
surfaced to the sender (`send_message` is total and returns normally with no
deliveries). -/
theorem route_delivers_iff_admitted (r : Registry) (s u : Nat) (text : String) :
    (∀ ch, lookupConn r u = some ch →
      send_message r s u text = (r, [(ch, text)])) ∧
    (lookupConn r u = none → send_message r s u text = (r, [])) := by
  constructor
  · intro ch h
    simp [send_message, h]
  · intro h
    simp [send_message, h]

theorem route_delivers_iff_admitted_witness :
    send_message [(7, 42)] 5 7 "hi" = ([(7, 42)], [(42, "hi")]) ∧
    send_message [(7, 42)] 5 9 "hi" = ([(7, 42)], []) :=
  ⟨(route_delivers_iff_admitted [(7, 42)] 5 7 "hi").1 42 (by decide),
   (route_delivers_iff_admitted [(7, 42)] 5 9 "hi").2 (by decide)⟩

/-- C2: re-admission last-wins: after `Admit(u, A)` then `Admit(u, C)` the
registry maps `u` to `C`, any subsequent `Route(_, u, text)` delivers the
text on `C` exactly once, and (when `A` and `C` are distinct channels)
nothing is ever delivered on `A`. -/
theorem readmission_last_wins (r : Registry) (u A C s : Nat) (text : String) :
    lookupConn (connect (connect r u A) u C) u = some C ∧
    send_message (connect (connect r u A) u C) s u text =
      (connect (connect r u A) u C, [(C, text)]) ∧
    (A ≠ C → ∀ m, (A, m) ∉ (send_message (connect (connect r u A) u C) s u text).2) := by
  have h := lookupConn_connect_self (connect r u A) u C
  refine ⟨h, by simp [send_message, h], ?_⟩
  intro hAC m hmem
  simp only [send_message, h, List.mem_singleton] at hmem
  exact hAC (congrArg Prod.fst hmem)

theorem readmission_last_wins_witness :
    lookupConn (connect (connect [] 5 1) 5 2) 5 = some 2 ∧
    send_message (connect (connect [] 5 1) 5 2) 7 5 "hi" =
      (connect (connect [] 5 1) 5 2, [(2, "hi")]) ∧
    (1, "hi") ∉ (send_message (connect (connect [] 5 1) 5 2) 7 5 "hi").2 := by
  have h := readmission_last_wins [] 5 1 2 7 "hi"
  exact ⟨h.1, h.2.1, h.2.2 (by decide) "hi"⟩

/-- C3: `Evict(u)` removes the registry mapping for `u` if present (and
touches no other user's mapping) and is a no-op when `u` is not mapped;
after `Admit(u, A)` then `Evict(u)`, any subsequent `Route(x, u, text)`
delivers nothing. -/
theorem evict_removes_mapping (r : Registry) (u A x : Nat) (text : String) :
    (lookupConn r u = none → disconnect r u = r) ∧
    lookupConn (disconnect r u) u = none ∧
    (∀ v, v ≠ u → lookupConn (disconnect r u) v = lookupConn r v) ∧
    (send_message (disconnect (connect r u A) u) x u text).2 = [] := by
  refine ⟨?_, lookupConn_disconnect_self r u,
    fun v hv => lookupConn_disconnect_other r u v hv, ?_⟩
  · intro h
    simp [disconnect, h]
  · have h := lookupConn_disconnect_self (connect r u A) u
    simp [send_message, h]

theorem evict_removes_mapping_witness :
    disconnect ([] : Registry) 5 = [] ∧
    lookupConn (disconnect [(5, 1)] 5) 5 = none ∧
    lookupConn (disconnect [(5, 1), (6, 2)] 5) 6 = lookupConn [(5, 1), (6, 2)] 6 ∧
    (send_message (disconnect (connect [] 5 1) 5) 7 5 "hi").2 = [] :=
  ⟨(evict_removes_mapping [] 5 1 7 "hi").1 (by decide),
   (evict_removes_mapping [(5, 1)] 5 1 7 "hi").2.1,
   (evict_removes_mapping [(5, 1), (6, 2)] 5 1 7 "hi").2.2.1 6 (by decide),
   (evict_removes_mapping [] 5 1 7 "hi").2.2.2⟩

/-- C9: stale-channel disconnect evicts the replacement: after
`Admit(u, A)` then `Admit(u, C)`, the endpoint's disconnect path (which
evicts by user id only, without checking that the registered channel is the
one that disconnected) removes the entry for `u` entirely, so a subsequent
`Route(x, u, text)` delivers nothing — to neither `A` nor `C`. -/
theorem stale_disconnect_evicts_replacement (r : Registry) (u A C x : Nat)
    (text : String) :
    lookupConn (websocket_close_path (connect (connect r u A) u C) u) u = none ∧
    (send_message (websocket_close_path (connect (connect r u A) u C) u) x u text).2
      = [] := by
  have h := lookupConn_disconnect_self (connect (connect r u A) u C) u
  exact ⟨h, by simp [send_message, websocket_close_path, h]⟩

/-! ## Claim theorems: record store -/

/-- C4 counterexample: on a backing file that is present but whose content
is not parsable at all, `load_data` does not return the empty sequence — the
uncaught `json.JSONDecodeError` propagates to the caller (only
`FileNotFoundError` is caught). -/
theorem load_data_unparsable_raises :
    load_data (Medium.unparsable : Medium Nat) =
      Except.error "json.decoder.JSONDecodeError" ∧
    load_data (Medium.unparsable : Medium Nat) ≠ Except.ok [] := by
  constructor
  · rfl
  · intro h
    exact Except.noConfusion h

/-- C4 (amended): `load_data` returns the stored ordered sequence when the
content parses to a list, and the empty sequence when the backing medium is
absent or parses to a non-list value; but content that is not parsable at
all raises (`json.JSONDecodeError` is not caught) rather than yielding the
empty sequence. -/
theorem load_data_amended {α : Type} (records : List α) :
    load_data (Medium.jsonList records) = Except.ok records ∧
    load_data (Medium.absent : Medium α) = Except.ok [] ∧
    load_data (Medium.jsonNonList : Medium α) = Except.ok [] ∧
    load_data (Medium.unparsable : Medium α) =
      Except.error "json.decoder.JSONDecodeError" :=
  ⟨rfl, rfl, rfl, rfl⟩

/-! ## Claim theorems: id assignment on create -/

theorem create_project_append (projects : List ProjectRec) (p : ProjectRec) :
    (create_project projects p).1 = projects ++ [(create_project projects p).2] :=
  rfl

theorem create_project_nonempty (projects : List ProjectRec) (p : ProjectRec)
    (h : projects ≠ []) :
    create_project projects p =
      (projects ++ [{ p with id := maxId (projects.map (fun q => q.id)) + 1 }],
       { p with id := maxId (projects.map (fun q => q.id)) + 1 }) := by
  simp [create_project, List.isEmpty_iff, h]

theorem register_user_nonempty (users : List UserRec) (u : UserRec)
    (h : users ≠ []) :
    register_user users u =
      (users ++ [{ u with id := maxId (users.map (fun v => v.id)) + 1 }],
       { u with id := maxId (users.map (fun v => v.id)) + 1 }) := by
  simp [register_user, List.isEmpty_iff, h]

/-- C5: id assignment on create, uniform across the creates: on an empty
collection the new record gets id 1; on a nonempty one it gets
`max(existing ids) + 1`; the record appended and the record returned are the
payload carrying that id (for forms, provided the uniqueness scan does not
reject the payload first); and two sequential creates assign distinct ids. -/
theorem create_id_assignment (projects : List ProjectRec) (p p2 : ProjectRec)
    (users : List UserRec) (u : UserRec) (forms : List FormRec) (f : FormRec) :
    (create_project [] p = ([{ p with id := 1 }], { p with id := 1 })) ∧
    (projects ≠ [] →
      create_project projects p =
        (projects ++ [{ p with id := maxId (projects.map (fun q => q.id)) + 1 }],
         { p with id := maxId (projects.map (fun q => q.id)) + 1 })) ∧
    (register_user [] u = ([{ u with id := 1 }], { u with id := 1 })) ∧
    (users ≠ [] →
      register_user users u =
        (users ++ [{ u with id := maxId (users.map (fun v => v.id)) + 1 }],
         { u with id := maxId (users.map (fun v => v.id)) + 1 })) ∧
    (create_form [] f = .ok ([{ f with id := 1 }], { f with id := 1 })) ∧
    (forms ≠ [] →
      (∀ e ∈ forms, ¬(e.user_id = f.user_id ∧ e.project_id = f.project_id)) →
      create_form forms f =
        .ok (forms ++ [{ f with id := maxId (forms.map (fun g => g.id)) + 1 }],
          { f with id := maxId (forms.map (fun g => g.id)) + 1 })) ∧
    (create_project (create_project projects p).1 p2).2.id ≠
      (create_project projects p).2.id := by
  refine ⟨rfl, create_project_nonempty projects p, rfl,
    register_user_nonempty users u, rfl, ?_, ?_⟩
  · intro hne hnc
    have hscan : forms.any
        (fun e => e.user_id == f.user_id && e.project_id == f.project_id) = false := by
      rw [List.any_eq_false]
      intro e he
      have := hnc e he
      simp only [Bool.and_eq_true, beq_iff_eq]
      exact fun hc => this hc
    simp [create_form, hscan, List.isEmpty_iff, hne]
  · have hmem : (create_project projects p).2 ∈ (create_project projects p).1 := by
      rw [create_project_append]
      exact List.mem_append_right _ (List.mem_singleton_self _)
    have hne1 : (create_project projects p).1 ≠ [] :=
      List.ne_nil_of_mem hmem
    have h2 := create_project_nonempty (create_project projects p).1 p2 hne1
    have hid2 : (create_project (create_project projects p).1 p2).2.id =
        maxId ((create_project projects p).1.map (fun q => q.id)) + 1 := by
      rw [h2]
    have hle : (create_project projects p).2.id ≤
        maxId ((create_project projects p).1.map (fun q => q.id)) :=
      mem_le_maxId _ _ (List.mem_map_of_mem _ hmem)
    rw [hid2]
    omega

theorem create_id_assignment_witness :
    (create_project [] prSample = ([{ prSample with id := 1 }], { prSample with id := 1 })) ∧
    create_project [{ prSample with id := 1 }] prSample =
      ([{ prSample with id := 1 }, { prSample with id := 2 }], { prSample with id := 2 }) ∧
    create_form [{ fmSample with id := 1 }] { fmSample with user_id := 8 } =
      .ok ([{ fmSample with id := 1 }, { fmSample with id := 2, user_id := 8 }],
        { fmSample with id := 2, user_id := 8 }) := by
  have h := create_id_assignment [{ prSample with id := 1 }] prSample prSample
    [] usSample [{ fmSample with id := 1 }] { fmSample with user_id := 8 }
  refine ⟨h.1, ?_, ?_⟩
  · have h2 := h.2.1 (by simp)
    rw [h2]
    simp [maxId]
  · have h6 := h.2.2.2.2.2.1 (by simp) (by decide)
    rw [h6]
    simp [maxId]

/-! ## Claim theorems: form uniqueness -/

/-- C6: creating a form whose `(user_id, project_id)` pair already occurs in
some existing form fails with 400 "Form already submitted for this project"
before any mutation (the collection is not saved, hence unchanged); a form
whose pair occurs in no existing form is appended and returned with the
payload's pair and fields intact. -/
theorem form_pair_uniqueness (forms : List FormRec) (f : FormRec) :
    ((∃ e ∈ forms, e.user_id = f.user_id ∧ e.project_id = f.project_id) →
      create_form forms f = .error "Form already submitted for this project") ∧
    ((∀ e ∈ forms, ¬(e.user_id = f.user_id ∧ e.project_id = f.project_id)) →
      ∃ nf, create_form forms f = .ok (forms ++ [nf], nf) ∧
        nf.user_id = f.user_id ∧ nf.project_id = f.project_id ∧
        nf.motivation = f.motivation ∧ nf.experience = f.experience ∧
        nf.availability = f.availability) := by
  constructor
  · rintro ⟨e, he, h1, h2⟩
    have hscan : forms.any
        (fun e => e.user_id == f.user_id && e.project_id == f.project_id) = true := by
      rw [List.any_eq_true]
      exact ⟨e, he, by simp [h1, h2]⟩
    simp [create_form, hscan]
  · intro hnc
    have hscan : forms.any
        (fun e => e.user_id == f.user_id && e.project_id == f.project_id) = false := by
      rw [List.any_eq_false]
      intro e he
      have := hnc e he
      simp only [Bool.and_eq_true, beq_iff_eq]
      exact fun hc => this hc
    refine ⟨{ f with id :=
        if forms.isEmpty then 1 else maxId (forms.map (fun g => g.id)) + 1 },
      ?_, rfl, rfl, rfl, rfl, rfl⟩
    simp [create_form, hscan]

theorem form_pair_uniqueness_witness :
    create_form [{ fmSample with id := 1 }] fmSample =
      .error "Form already submitted for this project" ∧
    (∃ nf, create_form [{ fmSample with id := 1 }] { fmSample with project_id := 9 } =
        .ok ([{ fmSample with id := 1 }] ++ [nf], nf) ∧
      nf.user_id = ({ fmSample with project_id := 9 } : FormRec).user_id ∧
      nf.project_id = ({ fmSample with project_id := 9 } : FormRec).project_id ∧
      nf.motivation = ({ fmSample with project_id := 9 } : FormRec).motivation ∧
      nf.experience = ({ fmSample with project_id := 9 } : FormRec).experience ∧
      nf.availability = ({ fmSample with project_id := 9 } : FormRec).availability) :=
  ⟨(form_pair_uniqueness [{ fmSample with id := 1 }] fmSample).1
     ⟨{ fmSample with id := 1 }, List.mem_singleton_self _, rfl, rfl⟩,
   (form_pair_uniqueness [{ fmSample with id := 1 }]
      { fmSample with project_id := 9 }).2 (by decide)⟩

/-! ## Claim theorems: update preserves identity fields -/

theorem update_project_ok_eq :
    ∀ (projects : List ProjectRec) (project_id : Int) (up : ProjectRec)
      (l2 : List ProjectRec) (m : ProjectRec),
      update_project projects project_id up = Except.ok (l2, m) →
      m = { up with id := project_id }
  | [], _, _, _, _, h => Except.noConfusion h
  | p :: ps, pid, up, l2, m, h => by
    simp only [update_project] at h
    by_cases hp : p.id = pid
    · rw [if_pos hp] at h
      simp only [Except.ok.injEq, Prod.mk.injEq] at h
      rw [← h.2, hp]
    · rw [if_neg hp] at h
      cases hrec : update_project ps pid up with
      | ok pr =>
        obtain ⟨ps2, m2⟩ := pr
        rw [hrec] at h
        simp only [Except.ok.injEq, Prod.mk.injEq] at h
        rw [← h.2]
        exact update_project_ok_eq ps pid up ps2 m2 hrec
      | error e =>
        rw [hrec] at h
        exact Except.noConfusion h

theorem update_task_ok_eq :
    ∀ (tasks : List TaskRec) (project_id task_id : Int) (ut : TaskRec)
      (l2 : List TaskRec) (m : TaskRec),
      update_task tasks project_id task_id ut = Except.ok (l2, m) →
      m = { ut with id := task_id, project_id := project_id }
  | [], _, _, _, _, _, h => Except.noConfusion h
  | t :: ts, pid, tid, ut, l2, m, h => by
    simp only [update_task] at h
    by_cases ht : t.id = tid ∧ t.project_id = pid
    · rw [if_pos ht] at h
      simp only [Except.ok.injEq, Prod.mk.injEq] at h
      rw [← h.2, ht.1, ht.2]
    · rw [if_neg ht] at h
      cases hrec : update_task ts pid tid ut with
      | ok pr =>
        obtain ⟨ts2, m2⟩ := pr
        rw [hrec] at h
        simp only [Except.ok.injEq, Prod.mk.injEq] at h
        rw [← h.2]
        exact update_task_ok_eq ts pid tid ut ts2 m2 hrec
      | error e =>
        rw [hrec] at h
        exact Except.noConfusion h

/-- C7: a successful update leaves the matched record's id unchanged (the
scan matched on it, so the merged record's id equals the path id, not the
payload's), for Task also its project_id; every other field of the payload
is merged over the existing record. -/
theorem update_preserves_identity :
    (∀ (projects l2 : List ProjectRec) (project_id : Int) (up m : ProjectRec),
      update_project projects project_id up = Except.ok (l2, m) →
      m.id = project_id ∧ m.name = up.name ∧ m.description = up.description ∧
      m.podrazdelenie = up.podrazdelenie ∧ m.date = up.date ∧
      m.skills = up.skills) ∧
    (∀ (tasks l2 : List TaskRec) (project_id task_id : Int) (ut m : TaskRec),
      update_task tasks project_id task_id ut = Except.ok (l2, m) →
      m.id = task_id ∧ m.project_id = project_id ∧ m.name = ut.name ∧
      m.description = ut.description ∧ m.date = ut.date ∧
      m.status = ut.status) := by
  constructor
  · intro projects l2 pid up m h
    rw [update_project_ok_eq projects pid up l2 m h]
    exact ⟨rfl, rfl, rfl, rfl, rfl, rfl⟩
  · intro tasks l2 pid tid ut m h
    rw [update_task_ok_eq tasks pid tid ut l2 m h]
    exact ⟨rfl, rfl, rfl, rfl, rfl, rfl⟩

theorem update_preserves_identity_witness :
    (({ prPayload with id := 1 } : ProjectRec).id = 1 ∧
     ({ prPayload with id := 1 } : ProjectRec).name = prPayload.name ∧
     ({ prPayload with id := 1 } : ProjectRec).description = prPayload.description ∧
     ({ prPayload with id := 1 } : ProjectRec).podrazdelenie = prPayload.podrazdelenie ∧
     ({ prPayload with id := 1 } : ProjectRec).date = prPayload.date ∧
     ({ prPayload with id := 1 } : ProjectRec).skills = prPayload.skills) ∧
    (({ tkPayload with id := 2, project_id := 5 } : TaskRec).id = 2 ∧
     ({ tkPayload with id := 2, project_id := 5 } : TaskRec).project_id = 5 ∧
     ({ tkPayload with id := 2, project_id := 5 } : TaskRec).name = tkPayload.name ∧
     ({ tkPayload with id := 2, project_id := 5 } : TaskRec).description = tkPayload.description ∧
     ({ tkPayload with id := 2, project_id := 5 } : TaskRec).date = tkPayload.date ∧
     ({ tkPayload with id := 2, project_id := 5 } : TaskRec).status = tkPayload.status) :=
  ⟨update_preserves_identity.1 [{ prSample with id := 1 }]
     [{ prPayload with id := 1 }] 1 prPayload { prPayload with id := 1 } rfl,
   update_preserves_identity.2 [{ tkSample with id := 2, project_id := 5 }]
     [{ tkPayload with id := 2, project_id := 5 }] 5 2 tkPayload
     { tkPayload with id := 2, project_id := 5 } rfl⟩

/-! ## Claim theorems: delete -/

theorem length_filter_lt_of_mem {α : Type} (l : List α) (q : α → Bool) (x : α)
    (hx : x ∈ l) (hqx : q x = false) : (l.filter q).length < l.length := by
  induction l with
  | nil => cases hx
  | cons a as ih =>
    rcases List.mem_cons.mp hx with h | h
    · have hqa : q a = false := by rw [← h]; exact hqx
      rw [List.filter_cons, hqa]
      simp only [List.length_cons]
      exact Nat.lt_succ_of_le (List.length_filter_le q as)
    · by_cases hqa : q a
      · rw [List.filter_cons, hqa]
        simp only [List.length_cons, if_true]
        exact Nat.succ_lt_succ (ih h)
      · rw [List.filter_cons, Bool.eq_false_iff.mpr hqa]
        simp only [List.length_cons]
        exact Nat.lt_succ_of_le (Nat.le_of_lt (ih h))

/-- C8: delete removes exactly the records matching the id (the persisted
collection is the filter of the non-matching records) and reports success
when at least one record matched; when no record matches it fails with 404
and no save is performed, so the persisted collection is unchanged.  Proved
for all three delete handlers the claim names. -/
theorem delete_raises_iff (projects : List ProjectRec) (project_id : Int)
    (tasks : List TaskRec) (tp tid : Int) (forms : List FormRec) (fid : Int) :
    ((∃ p ∈ projects, p.id = project_id) →
      delete_project projects project_id =
        .ok (projects.filter (fun p => p.id != project_id))) ∧
    ((∀ p ∈ projects, p.id ≠ project_id) →
      delete_project projects project_id = .error "Project not found") ∧
    ((∃ t ∈ tasks, t.id = tid ∧ t.project_id = tp) →
      delete_task tasks tp tid =
        .ok (tasks.filter (fun t => !(t.id == tid && t.project_id == tp)))) ∧
    ((∀ t ∈ tasks, ¬(t.id = tid ∧ t.project_id = tp)) →
      delete_task tasks tp tid = .error "Task not found") ∧
    ((∃ f ∈ forms, f.id = fid) →
      delete_form forms fid = .ok (forms.filter (fun f => f.id != fid))) ∧
    ((∀ f ∈ forms, f.id ≠ fid) →
      delete_form forms fid = .error "Form not found") := by
  refine ⟨?_, ?_, ?_, ?_, ?_, ?_⟩
  · rintro ⟨p, hp, hpid⟩
    have hlt := length_filter_lt_of_mem projects (fun p => p.id != project_id) p hp
      (by simp [hpid])
    simp only [delete_project]
    rw [if_neg (Nat.ne_of_lt hlt)]
  · intro hall
    have heq : projects.filter (fun p => p.id != project_id) = projects :=
      List.filter_eq_self.mpr (fun p hp => by simp [hall p hp])
    simp only [delete_project]
    rw [heq, if_pos rfl]
  · rintro ⟨t, ht, h1, h2⟩
    have hlt := length_filter_lt_of_mem tasks
      (fun t => !(t.id == tid && t.project_id == tp)) t ht (by simp [h1, h2])
    simp only [delete_task]
    rw [if_neg (Nat.ne_of_lt hlt)]
  · intro hall
    have heq : tasks.filter (fun t => !(t.id == tid && t.project_id == tp)) = tasks :=
      List.filter_eq_self.mpr (fun t ht => by
        have h1 := hall t ht
        simp only [Bool.not_eq_true']
        rw [Bool.eq_false_iff]
        intro hc
        rw [Bool.and_eq_true, beq_iff_eq, beq_iff_eq] at hc
        exact h1 hc)
    simp only [delete_task]
    rw [heq, if_pos rfl]
  · rintro ⟨f, hf, hfid⟩
    have hlt := length_filter_lt_of_mem forms (fun f => f.id != fid) f hf
      (by simp [hfid])
    simp only [delete_form]
    rw [if_neg (Nat.ne_of_lt hlt)]
  · intro hall
    have heq : forms.filter (fun f => f.id != fid) = forms :=
      List.filter_eq_self.mpr (fun f hf => by simp [hall f hf])
    simp only [delete_form]
    rw [heq, if_pos rfl]

theorem delete_raises_iff_witness :
    delete_project [pr1] 1 = .ok [] ∧
    delete_project [pr1] 2 = .error "Project not found" ∧
    delete_task [tk1] 2 1 = .ok [] ∧
    delete_task [tk1] 3 1 = .error "Task not found" ∧
    delete_form [fm1] 1 = .ok [] ∧
    delete_form [fm1] 2 = .error "Form not found" := by
  have hOk := delete_raises_iff [pr1] 1 [tk1] 2 1 [fm1] 1
  have hErr := delete_raises_iff [pr1] 2 [tk1] 3 1 [fm1] 2
  exact ⟨(hOk.1 ⟨pr1, List.mem_singleton_self _, rfl⟩).trans rfl,
    hErr.2.1 (by decide),
    (hOk.2.2.1 ⟨tk1, List.mem_singleton_self _, rfl, rfl⟩).trans rfl,
    hErr.2.2.2.1 (by decide),
    (hOk.2.2.2.2.1 ⟨fm1, List.mem_singleton_self _, rfl⟩).trans rfl,
    hErr.2.2.2.2.2 (by decide)⟩

/-! ## Claim theorems: id-uniqueness invariant -/

theorem update_project_ok_map_ids :
    ∀ (projects : List ProjectRec) (project_id : Int) (up : ProjectRec)
      (l2 : List ProjectRec) (m : ProjectRec),
      update_project projects project_id up = Except.ok (l2, m) →
      l2.map (fun q => q.id) = projects.map (fun q => q.id)
  | [], _, _, _, _, h => Except.noConfusion h
  | p :: ps, pid, up, l2, m, h => by
    simp only [update_project] at h
    by_cases hp : p.id = pid
    · rw [if_pos hp] at h
      simp only [Except.ok.injEq, Prod.mk.injEq] at h
      rw [← h.1]
      simp [hp]
    · rw [if_neg hp] at h
      cases hrec : update_project ps pid up with
      | ok pr =>
        obtain ⟨ps2, m2⟩ := pr
        rw [hrec] at h
        simp only [Except.ok.injEq, Prod.mk.injEq] at h
        rw [← h.1]
        simp only [List.map_cons]
        rw [update_project_ok_map_ids ps pid up ps2 m2 hrec]
      | error e =>
        rw [hrec] at h
        exact Except.noConfusion h

theorem delete_project_ok (projects : List ProjectRec) (project_id : Int)
    (l2 : List ProjectRec) (h : delete_project projects project_id = Except.ok l2) :
    l2 = projects.filter (fun p => p.id != project_id) := by
  simp only [delete_project] at h
  by_cases hl : (projects.filter (fun p => p.id != project_id)).length =
      projects.length
  · rw [if_pos hl] at h
    exact Except.noConfusion h
  · rw [if_neg hl] at h
    simp only [Except.ok.injEq] at h
    exact h.symm

/-- C10: starting from an empty collection, every sequence of create,
update and delete operations preserves pairwise-distinct ids: create
appends an id strictly greater than every existing id, a successful update
replaces a record by one with the same id, and delete only removes
records. -/
theorem reachable_ids_nodup (l : List ProjectRec) (h : ReachableProjects l) :
    (l.map (fun p => p.id)).Nodup := by
  induction h with
  | empty => simp
  | create l p hl ih =>
    rcases eq_or_ne l [] with hnil | hne
    · subst hnil
      simp [create_project]
    · rw [create_project_nonempty l p hne]
      simp only [List.map_append, List.map_cons, List.map_nil]
      rw [List.nodup_append]
      refine ⟨ih, List.nodup_singleton _, ?_⟩
      intro a ha hb
      rw [List.mem_singleton] at hb
      have hle := mem_le_maxId (l.map (fun q => q.id)) a ha
      omega
  | update l l2 pid up m hl hupd ih =>
    rw [update_project_ok_map_ids l pid up l2 m hupd]
    exact ih
  | delete l l2 pid hl hdel ih =>
    rw [delete_project_ok l pid l2 hdel]
    exact List.Nodup.sublist
      ((List.filter_sublist l).map (fun q => q.id)) ih

theorem reachable_ids_nodup_witness :
    (((create_project (create_project [] prSample).1 prSample).1.map
        (fun p => p.id)).Nodup : Prop) :=
  reachable_ids_nodup _
    (ReachableProjects.create _ prSample
      (ReachableProjects.create [] prSample ReachableProjects.empty))

end ToGoal
